import Mathlib

/-!
Shallow embedding of the `eisenwinter/fiql-parser` Go repository
(`lexer.go`, `parser.go`, `duration.go`) and proofs about the claims of
its specification.

Modelling conventions:
* Go strings / rune slices become `List Char`; the lexer cursor keeps the
  not-yet-consumed suffix of the input instead of an index (Go: `input[pos:]`).
* Fallible Go functions returning `(value, error)` become `Except`-valued
  functions.  Go additionally returns a partially built node next to a
  non-nil error; every caller aborts on a non-nil error, so the embedding
  keeps only the error on the error path.
* The mutually recursive descent (`build` and its handlers) is indexed by
  explicit fuel; `parseFiql` supplies more fuel than the recursion can use
  (every recursive step consumes input), so `PErr.outOfFuel` is unreachable
  from the top-level entry point on the inputs considered here.
* `float64` values in `duration.go` are modelled as exact rationals; all
  literals appearing in the claims are small integers whose `float64`
  arithmetic is exact.
-/

deriving instance DecidableEq for Except

namespace Fiql

/-- Token kinds of `lexer.go` (`tokenValue`, `tokenWildcard`, `tokenBraceOpen`,
`tokenBraceClose`, `tokenAND`, `tokenOR`, the eight comparison tokens —
including the source's misspelt `tokenComapreIn` — and `tokenEOF`). -/
inductive Tok where
  | value
  | wildcard
  | braceOpen
  | braceClose
  | tAND
  | tOR
  | compareEqual
  | compareNotEqual
  | compareGt
  | compareLt
  | compareGte
  | compareLte
  | compareIn
  | compareQ
  | eof
deriving Repr, DecidableEq

/-- Mirrors `tokenType.String()` in lexer.go. -/
def Tok.str : Tok → String
  | .value => "Value"
  | .wildcard => "*"
  | .braceOpen => "("
  | .braceClose => ")"
  | .tAND => "AND"
  | .tOR => "OR"
  | .compareEqual => "=="
  | .compareNotEqual => "<>"
  | .compareGt => ">"
  | .compareLt => "<"
  | .compareGte => ">="
  | .compareLte => "<="
  | .compareIn => "in"
  | .compareQ => "query"
  | .eof => "eof"

/-- Mirrors `isCompareToken` in lexer.go. -/
def isCompareToken (t : Tok) : Bool :=
  match t with
  | .compareEqual | .compareNotEqual | .compareGt | .compareLt
  | .compareGte | .compareLte | .compareIn | .compareQ => true
  | _ => false

/-- Mirrors `isNumberOrDateComparision` in lexer.go (source spelling kept). -/
def isNumberOrDateComparision (t : Tok) : Bool :=
  match t with
  | .compareGt | .compareLt | .compareGte | .compareLte => true
  | _ => false

/-- Mirrors `isInToken` in lexer.go. -/
def isInToken (t : Tok) : Bool := t = Tok.compareIn

/-- Mirrors `isLogicToken` in lexer.go. -/
def isLogicToken (t : Tok) : Bool := t = Tok.tAND || t = Tok.tOR

/-- Error values produced by the lexer and parser.  Each constructor
corresponds to one `fmt.Errorf` / `errors.New` site of the Go sources and
carries exactly the data interpolated into that message; `render` rebuilds
the exact message text.  `outOfFuel` is an artefact of the fuel-indexed
embedding of the recursive descent and corresponds to no Go behaviour. -/
inductive PErr where
  | unexpectedInput (ln col : Nat) (got : String)
  | unexpectedEOF
  | syntaxGotExpected (ln col : Nat) (got expected : String)
  | danglingOperator (ln col : Nat)
  | danglingComparator (ln col : Nat)
  | invalidClosingBrace (ln col : Nat)
  | unclosedBrace (ln col : Nat)
  | outOfFuel
deriving Repr, DecidableEq

/-- Exact Go error messages.  `unexpectedInput` comes from `toCompareToken` /
`readComparator` (`ln:%d:%d %w (got `%s` but expected one of ...)` wrapping
`ErrUnexpectedInput`), `unexpectedEOF` is `ErrUnexpectedEOF` returned bare by
`readComparator`, and `syntaxGotExpected` covers the parser's
`syntax error (got `%s` but expected %s)` sites. -/
def render : PErr → String
  | .unexpectedInput ln col got =>
      "ln:" ++ toString ln ++ ":" ++ toString col ++
        " unexpected input (got `" ++ got ++
        "` but expected one of ==,!=,=gt=,=ge=,=lt=,=le=,=in=,=q=)"
  | .unexpectedEOF => "unexpected end of file"
  | .syntaxGotExpected ln col got expected =>
      "ln:" ++ toString ln ++ ":" ++ toString col ++
        " syntax error (got `" ++ got ++ "` but expected " ++ expected ++ ")"
  | .danglingOperator ln col =>
      "ln:" ++ toString ln ++ ":" ++ toString col ++ " dangling operator"
  | .danglingComparator ln col =>
      "ln:" ++ toString ln ++ ":" ++ toString col ++ " dangling comparator"
  | .invalidClosingBrace ln col =>
      "ln:" ++ toString ln ++ ":" ++ toString col ++
        " syntax error (invalid closing brace `)` )"
  | .unclosedBrace ln col =>
      "ln:" ++ toString ln ++ ":" ++ toString col ++
        " syntax error (unclosed brace `)` )"
  | .outOfFuel => "out of fuel"

/-- Go `unicode.IsSpace`: the Latin-1 white space characters together with
the Unicode `White_Space` code points. -/
def goIsSpace (c : Char) : Bool :=
  c = ' ' || c = '\t' || c = '\n' || (c.val = 11) || (c.val = 12) ||
  c = '\r' || (c.val = 0x85) || (c.val = 0xA0) ||
  (c.val = 0x1680) || (0x2000 ≤ c.val && c.val ≤ 0x200A) ||
  (c.val = 0x2028) || (c.val = 0x2029) || (c.val = 0x202F) ||
  (c.val = 0x205F) || (c.val = 0x3000)

/-- The lexer cursor of lexer.go.  `rest` is the unread suffix of the input
(Go keeps the full input plus an index `pos`; the two representations are
equivalent).  `ln` and `posInLine` are the 1-based line and column, and
`currentVal` is the last raw literal (`lastValue`). -/
structure Lexer where
  rest : List Char
  ln : Nat
  posInLine : Nat
  currentVal : String
deriving Repr, DecidableEq

/-- Mirrors `lexer.peek`. -/
def Lexer.peek (l : Lexer) : Option Char := l.rest.head?

/-- Line/column update of `lexer.consume`: a newline starts the next line,
anything else advances the column. -/
def stepPos (c : Char) (ln col : Nat) : Nat × Nat :=
  if c = '\n' then (ln + 1, 0) else (ln, col + 1)

/-- Mirrors `lexer.consume`.  Go indexes `input[pos]` unconditionally and
would panic on empty input; every call site peeks first, so the empty case
is unreachable and returns a dummy character. -/
def Lexer.consume (l : Lexer) : Char × Lexer :=
  match l.rest with
  | [] => ('\x00', l)
  | c :: r =>
      let (ln', col') := stepPos c l.ln l.posInLine
      (c, { l with rest := r, ln := ln', posInLine := col' })

/-- Go `strings.ToLower`, character by character.  (Go lowercases by
Unicode mapping; `Char.toLower` covers the ASCII range, and every character
that can reach `toCompareToken` is ASCII by construction of
`readComparator`.) -/
def goToLower (s : String) : String := String.mk (s.toList.map Char.toLower)

/-- Mirrors `lexer.toCompareToken`: case-insensitive mapping of the
accumulated comparator text to a token, or the `unexpected input` error
listing all valid comparators (rendered by `render`). -/
def toCompareToken (l : Lexer) (cmp : String) : Except PErr Tok :=
  let s := goToLower cmp
  if s = "==" then .ok .compareEqual
  else if s = "!=" then .ok .compareNotEqual
  else if s = "=gt=" then .ok .compareGt
  else if s = "=ge=" then .ok .compareGte
  else if s = "=lt=" then .ok .compareLt
  else if s = "=le=" then .ok .compareLte
  else if s = "=in=" then .ok .compareIn
  else if s = "=q=" then .ok .compareQ
  else .error (.unexpectedInput l.ln l.posInLine cmp)

/-- Character set from which `readComparator` greedily reads. -/
def validCmpChar (c : Char) : Bool :=
  c = '=' || c = 'g' || c = 'l' || c = 't' || c = 'e' ||
  c = 'q' || c = 'i' || c = 'n'

/-- Loop body of `lexer.readComparator`, recursing on the unread suffix of
the input (`ln`, `col`, `cv` are the other cursor fields; `b` is the buffer
accumulated so far).  On end of input Go returns the bare
`ErrUnexpectedEOF`; on a character outside the restricted set it appends
that character to the buffer and reports the buffer text; on `=` it stops
and maps the buffer via `toCompareToken`. -/
def readComparatorLoop : List Char → List Char → Nat → Nat → String →
    Except PErr (Tok × Lexer)
  | _, [], _, _, _ => .error .unexpectedEOF
  | b, r :: rs, ln, col, cv =>
      if validCmpChar r then
        let (ln', col') := stepPos r ln col
        if r = '=' then
          match toCompareToken ⟨rs, ln', col', cv⟩ (String.mk (b ++ [r])) with
          | .ok t => .ok (t, ⟨rs, ln', col', cv⟩)
          | .error e => .error e
        else readComparatorLoop (b ++ [r]) rs ln' col' cv
      else .error (.unexpectedInput ln col (String.mk (b ++ [r])))

/-- Mirrors `lexer.readComparator`: consumes the first `=` or `!` and runs
the greedy loop. -/
def readComparator (l : Lexer) : Except PErr (Tok × Lexer) :=
  let (c, l₁) := l.consume
  readComparatorLoop [c] l₁.rest l₁.ln l₁.posInLine l₁.currentVal

/-- Delimiters that end an unescaped raw value in `readValue`. -/
def isDelim (c : Char) : Bool :=
  c = ';' || c = ',' || c = '!' || c = '=' || c = ')' || c = '*'

/-- Loop body of `lexer.readValue`, recursing on the unread suffix.  The
order of checks matches the source: white space always terminates the value
(even after a backslash, because the space check precedes the escape
handling); an unescaped delimiter terminates; an unescaped backslash is
consumed and sets the escape flag; everything else (including any escaped
non-space character) is appended. -/
def readValueLoop : List Char → Bool → List Char → Nat → Nat → String →
    List Char × Lexer
  | b, _, [], ln, col, cv => (b, ⟨[], ln, col, cv⟩)
  | b, escaped, v :: rs, ln, col, cv =>
      if goIsSpace v then (b, ⟨v :: rs, ln, col, cv⟩)
      else if !escaped && isDelim v then (b, ⟨v :: rs, ln, col, cv⟩)
      else
        let (ln', col') := stepPos v ln col
        if v = '\\' && !escaped then readValueLoop b true rs ln' col' cv
        else readValueLoop (b ++ [v]) false rs ln' col' cv

/-- Mirrors `lexer.readValue`: the first character is consumed
unconditionally (a backslash only sets the escape flag), then the loop runs;
the accumulated text becomes the token value and is stored in
`currentVal`. -/
def readValue (l : Lexer) : Tok × String × Lexer :=
  let (c, l₁) := l.consume
  let (b, esc) := if c = '\\' then (([] : List Char), true) else ([c], false)
  let (chars, l₂) := readValueLoop b esc l₁.rest l₁.ln l₁.posInLine l₁.currentVal
  let val := String.mk chars
  (.value, val, { l₂ with currentVal := val })

/-- Dispatch loop of `lexer.ConsumeToken`, recursing on the unread suffix:
skips white space, dispatches on the next character (comparator start,
braces, `;`, `,`, `*`) and otherwise reads a raw value.  End of input
yields the EOF token with no error. -/
def consumeTokenGo : List Char → Nat → Nat → String → Except PErr (Tok × Lexer)
  | [], ln, col, cv => .ok (.eof, ⟨[], ln, col, cv⟩)
  | r :: rs, ln, col, cv =>
      if goIsSpace r then
        let (ln', col') := stepPos r ln col
        consumeTokenGo rs ln' col' cv
      else if r = '!' || r = '=' then readComparator ⟨r :: rs, ln, col, cv⟩
      else
        let l : Lexer := ⟨r :: rs, ln, col, cv⟩
        if r = '(' then .ok (.braceOpen, (l.consume).2)
        else if r = ')' then .ok (.braceClose, (l.consume).2)
        else if r = ';' then .ok (.tAND, (l.consume).2)
        else if r = ',' then .ok (.tOR, (l.consume).2)
        else if r = '*' then .ok (.wildcard, (l.consume).2)
        else
          let (t, _, l') := readValue l
          .ok (t, l')

/-- Mirrors `lexer.ConsumeToken` (see `consumeTokenGo`). -/
def consumeToken (l : Lexer) : Except PErr (Tok × Lexer) :=
  consumeTokenGo l.rest l.ln l.posInLine l.currentVal

/-- Mirrors `lexer.PeekNextToken`: a trial `ConsumeToken` whose cursor
effects are rolled back; only the token and the would-be `currentVal` are
returned. -/
def peekNextToken (l : Lexer) : Except PErr (Tok × String) :=
  match consumeToken l with
  | .ok (t, l') => .ok (t, l'.currentVal)
  | .error e => .error e

/-- Node kind tags of parser.go (`NodeTypeExpression`, `NodeTypeBinary`,
`NodeTypeConstant`). -/
inductive NodeType where
  | expr
  | binary
  | const
deriving Repr, DecidableEq

/-- The AST of parser.go.  `null` models a nil `Node` (an `Expression`
without a child, or an unfilled slot of a `binaryExpression`'s two-element
node array).  `const` models `constantExpression` with its wildcard flags
(`prefixWildcard` / `suffixWildcard` in the source), selector role, value,
recommended type (the `ValueRecommendation` string) and unary flag. -/
inductive Node where
  | null
  | expr (root : Bool) (child : Node)
  | binary (op : String) (left right : Node)
  | const (preWildcard sufWildcard : Bool) (selector : Bool)
      (value : String) (recommended : String) (unary : Bool)
deriving Repr, DecidableEq

/-- Mirrors the `NodeType()` methods. -/
def Node.nodeType : Node → NodeType
  | .null => .expr
  | .expr _ _ => .expr
  | .binary _ _ _ => .binary
  | .const _ _ _ _ _ _ => .const

/-- Mirrors the `isRoot()` methods: only an `Expression` can be the root. -/
def Node.isRoot : Node → Bool
  | .expr r _ => r
  | _ => false

/-- Mirrors the `Add` methods: an `Expression` takes a single child, a
binary node fills its first empty slot.  The panicking cases of the source
(`Expression` already full, binary already full, `Add` on a constant) are
modelled as the identity; no modelled control path reaches them. -/
def Node.add : Node → Node → Node
  | .expr r .null, child => .expr r child
  | .expr r c, _ => .expr r c
  | .binary op .null r, child => .binary op child r
  | .binary op lft .null, child => .binary op lft child
  | .binary op lft r, _ => .binary op lft r
  | n, _ => n

/-- Value recommendation strings of parser.go
(`ValueRecommendationString` and friends). -/
def valueRecommendationString : String := "string"

/-- Recommendation for RFC 3339 date-time literals. -/
def valueRecommendationDateTime : String := "datetime"

/-- Recommendation for ISO-8601 duration literals. -/
def valueRecommendationDuration : String := "duration"

/-- Recommendation for numeric literals. -/
def valueRecommendationNumber : String := "number"

/-- Modelled from the spec: the tuple recommendation used by the `=in=`
validator.  The constant (string `"tuple"`) is referenced by the
repository's tests but its declaration is not among the provided sources. -/
def valueRecommendationTuple : String := "tuple"

/-- Mirrors `numericRegex`: the Go regular expression
`^(\+|-|)[0-9\.]+$` — an optional sign followed by one or more characters
that are each a digit or a dot. -/
def numericRegexMatch (s : String) : Bool :=
  match s.toList with
  | [] => false
  | c :: rest =>
      if c = '+' || c = '-' then !rest.isEmpty && rest.all (fun d => d.isDigit || d = '.')
      else (c :: rest).all (fun d => d.isDigit || d = '.')

/-- Consume one or more leading digits; `none` when the list does not start
with a digit. -/
def digits1 : List Char → Option (List Char)
  | c :: r => if c.isDigit then some (r.dropWhile Char.isDigit) else none
  | [] => none

/-- Consume `\d+(\.\d+)?` — a decimal number with optional fraction. -/
def numComponent (cs : List Char) : Option (List Char) :=
  match digits1 cs with
  | none => none
  | some rest =>
      match rest with
      | '.' :: r2 =>
          match digits1 r2 with
          | some r3 => some r3
          | none => some rest
      | _ => some rest

/-- Consume the optional regex group `(?:\d+(\.\d+)?u)?`: if a number
followed by the unit letter `u` starts here it is consumed, otherwise the
input is returned unchanged.  Each group of `durationRegex` matches at a
given position in exactly one way (the digit run and the optional fraction
are forced), so this committed strategy is equivalent to the regex. -/
def unitComponent (u : Char) (cs : List Char) : List Char :=
  match numComponent cs with
  | some rest =>
      match rest with
      | c :: r2 => if c = u then r2 else cs
      | [] => cs
  | none => cs

/-- Mirrors `durationRegex`: the Go regular expression
`^(\+|-|)P(?:\d+(?:\.\d+)?Y)?(?:\d+(?:\.\d+)?M)?(?:\d+(?:\.\d+)?W)?`
`(?:\d+(?:\.\d+)?D)?(?:T(?:\d+(?:\.\d+)?H)?(?:\d+(?:\.\d+)?M)?`
`(?:\d+(?:\.\d+)?S)?)?$`. -/
def durationRegexMatch (s : String) : Bool :=
  let cs := s.toList
  let cs := match cs with
    | '+' :: r => r
    | '-' :: r => r
    | r => r
  match cs with
  | 'P' :: r =>
      let r := unitComponent 'Y' r
      let r := unitComponent 'M' r
      let r := unitComponent 'W' r
      let r := unitComponent 'D' r
      let r := match r with
        | 'T' :: r2 =>
            let r2 := unitComponent 'H' r2
            let r2 := unitComponent 'M' r2
            unitComponent 'S' r2
        | _ => r
      r.isEmpty
  | _ => false

/-- Leap year rule of the proleptic Gregorian calendar (Go `isLeap`). -/
def goIsLeap (y : Nat) : Bool := y % 4 = 0 && (y % 100 ≠ 0 || y % 400 = 0)

/-- Days in a month (Go `daysIn`), with February depending on leap years. -/
def goDaysIn (m y : Nat) : Nat :=
  if m = 2 then (if goIsLeap y then 29 else 28)
  else if m = 4 || m = 6 || m = 9 || m = 11 then 30
  else 31

/-- Numeric value of a two-digit group. -/
def twoDigits (a b : Char) : Nat := (a.toNat - 48) * 10 + (b.toNat - 48)

/-- Model of Go `time.Parse(time.RFC3339, s)` succeeding, following the
documented RFC 3339 layout `2006-01-02T15:04:05Z07:00`: a fixed-width
date-time, an optional fractional second introduced by `.` with at least
one digit, and either `Z` or a `±hh:mm` offset; all calendar fields are
range-checked (day against the month and leap year).  Go's fallback layout
parser additionally tolerates a comma as the fraction separator; that
extension beyond RFC 3339 is not modelled. -/
def rfc3339Match (cs : List Char) : Bool :=
  match cs with
  | y1 :: y2 :: y3 :: y4 :: '-' :: m1 :: m2 :: '-' :: d1 :: d2 :: 'T' ::
    h1 :: h2 :: ':' :: n1 :: n2 :: ':' :: s1 :: s2 :: rest =>
      [y1, y2, y3, y4, m1, m2, d1, d2, h1, h2, n1, n2, s1, s2].all Char.isDigit &&
      (let year := ((y1.toNat - 48) * 10 + (y2.toNat - 48)) * 100 + twoDigits y3 y4
       let month := twoDigits m1 m2
       let day := twoDigits d1 d2
       1 ≤ month && month ≤ 12 &&
       1 ≤ day && day ≤ goDaysIn month year &&
       twoDigits h1 h2 ≤ 23 && twoDigits n1 n2 ≤ 59 && twoDigits s1 s2 ≤ 59 &&
       (let rest := match rest with
          | '.' :: f1 :: fr => if f1.isDigit then fr.dropWhile Char.isDigit else rest
          | _ => rest
        match rest with
        | ['Z'] => true
        | [sgn, z1, z2, ':', z3, z4] =>
            (sgn = '+' || sgn = '-') && [z1, z2, z3, z4].all Char.isDigit &&
            twoDigits z1 z2 ≤ 23 && twoDigits z3 z4 ≤ 59
        | _ => false))
  | _ => false

/-- Mirrors `isDateValue` in parser.go (`time.Parse(time.RFC3339, s)`
succeeding, see `rfc3339Match`). -/
def isDateValue (stringDate : String) : Bool := rfc3339Match stringDate.toList

/-- Validator result: accepted flag, recommended type, rejection hint
(Go `argumentValidator`). -/
abbrev ArgValidator := String → Bool × String × String

/-- Mirrors `numberOrDateExpressionValidator` in parser.go: number pattern,
then RFC 3339 date-time, then duration pattern, in this order; otherwise
rejected with the hint `number or date or duration`. -/
def numberOrDateExpressionValidator (i : String) : Bool × String × String :=
  if numericRegexMatch i then (true, valueRecommendationNumber, "")
  else if isDateValue i then (true, valueRecommendationDateTime, "")
  else if durationRegexMatch i then (true, valueRecommendationDuration, "")
  else (false, valueRecommendationString, "number or date or duration")

/-- Mirrors `defaultValidator` in parser.go: never rejects; classifies as
date-time, then duration, then number, defaulting to string. -/
def defaultValidator (i : String) : Bool × String × String :=
  if isDateValue i then (true, valueRecommendationDateTime, "")
  else if durationRegexMatch i then (true, valueRecommendationDuration, "")
  else if numericRegexMatch i then (true, valueRecommendationNumber, "")
  else (true, valueRecommendationString, "")

/-- Modelled from the spec: the `=in=` validator is referenced by the
repository's tests (rejection message `in clause [a+b+c]`, acceptance type
`tuple`) and selected via `isInToken`, but its definition is not among the
provided sources.  Spec §4.2: the literal must be wrapped in `[` … `]`;
acceptance always recommends type `tuple`; the rejection hint is
`in clause [a+b+c]` (rendered as `expected in clause [a+b+c]`). -/
def inExpressionValidator (i : String) : Bool × String × String :=
  if i.toList.head? = some '[' && i.toList.getLast? = some ']' then
    (true, valueRecommendationTuple, "")
  else (false, valueRecommendationString, "in clause [a+b+c]")

/-- Validator selection of `handleBinaryExpression`:
`validator := defaultValidator`, replaced by
`numberOrDateExpressionValidator` for the relational comparators; the
`isInToken` branch selecting the in-validator is modelled from the spec
(see `inExpressionValidator`). -/
def selectValidator (t : Tok) : ArgValidator :=
  if isNumberOrDateComparision t then numberOrDateExpressionValidator
  else if isInToken t then inExpressionValidator
  else defaultValidator

/-- Modelled from the spec: `isSeperatorUnary` is called by `build` in
parser.go but its definition is not among the provided sources.  Spec §4.4:
a raw value is a unary (bare) selector exactly when the lookahead token is
a logic token, a closing brace, or EOF; otherwise it starts a binary
comparison. -/
def isSeperatorUnary (t : Tok) : Bool :=
  isLogicToken t || t = Tok.braceClose || t = Tok.eof

/-- Mirrors `checkDanglingChild`: a binary node with fewer than two
non-nil children. -/
def checkDanglingChild (n : Node) : Bool :=
  match n with
  | .binary _ lft r =>
      ((if lft ≠ Node.null then 1 else 0) + (if r ≠ Node.null then 1 else 0)) ≠ 2
  | _ => false

/-- Mirrors `checkImpossibleTokensOnEnter`: tokens that may not start a
unit. -/
def checkImpossibleTokensOnEnter (t : Tok) (l : Lexer) : Option PErr :=
  if t = Tok.braceClose then some (.invalidClosingBrace l.ln l.posInLine)
  else if isLogicToken t then some (.danglingOperator l.ln l.posInLine)
  else if isCompareToken t then some (.danglingComparator l.ln l.posInLine)
  else none

/-- Mirrors `checkForEOF`: at EOF, a parent binary node still missing a
child is a dangling operator. -/
def checkForEOF (t : Tok) (node : Node) (l : Lexer) : Bool × Option PErr :=
  if t = Tok.eof then
    if checkDanglingChild node then (true, some (.danglingOperator l.ln l.posInLine))
    else (true, none)
  else (false, none)

/-- Mirrors `checkEndOrError`. -/
def checkEndOrError (t : Tok) (parent : Node) (l : Lexer) : Bool × Option PErr :=
  match checkForEOF t parent l with
  | (true, e) => (true, e)
  | (false, _) =>
      match checkImpossibleTokensOnEnter t l with
      | some e => (true, some e)
      | none => (false, none)

/-- Mirrors `handleArgumentConstant`: consume an optional leading wildcard,
require a raw value, apply the comparator's validator (rejection names the
literal and the hint), then consume an optional trailing wildcard. -/
def handleArgumentConstant (validator : ArgValidator) (l : Lexer) :
    Except PErr (Node × Lexer) := do
  let (t, l) ← consumeToken l
  let (preW, t, l) ←
    if t = Tok.wildcard then do
      let (t', l') ← consumeToken l
      pure (true, t', l')
    else pure (false, t, l)
  if t = Tok.value then
    let (ok, rec, msg) := validator l.currentVal
    if !ok then
      .error (.syntaxGotExpected l.ln l.posInLine l.currentVal msg)
    else do
      let (n, _) ← peekNextToken l
      if n = Tok.wildcard then do
        let (_, l₂) ← consumeToken l
        pure (Node.const preW true false l.currentVal rec false, l₂)
      else pure (Node.const preW false false l.currentVal rec false, l)
  else .error (.syntaxGotExpected l.ln l.posInLine t.str "a value")

/-- Shape of the recursive `build` procedure as passed down to the
handlers: the mutual recursion of parser.go is factored by handing each
handler the (fuel-instantiated) `build` it recurses through. -/
abbrev BuildFn := Node → Lexer → Except PErr (Node × Lexer)

/-- Mirrors `Parser.handleSubExpression`: a fresh non-root `Expression`
whose child is the recursively built node.  (Go assigns `expr.node = n`
through a pointer; on inputs where `build` returns the expression itself —
a group immediately containing a group — the Go assignment creates a
self-referential node, which an immutable tree cannot express; no input
considered here takes that path.  The `parent` parameter is unused, as in
the source.) -/
def handleSubExpression (bld : BuildFn) (parent : Node) (l : Lexer) :
    Except PErr (Node × Lexer) := do
  let (n, l) ← bld (Node.expr false Node.null) l
  pure (Node.expr false n, l)

/-- Mirrors `Parser.handleUnaryExpression`: a bare selector constant; a
following logic operator chains the whole remainder as the right operand;
a following comparator is a dangling comparator; a closing brace at the
document root is invalid. -/
def handleUnaryExpression (bld : BuildFn) (parent : Node) (l : Lexer) :
    Except PErr (Node × Lexer) := do
  let unary := Node.const false false true l.currentVal valueRecommendationString true
  let (next, _) ← peekNextToken l
  if isLogicToken next then do
    let (t, l) ← consumeToken l
    let (rhs, l) ← bld (Node.binary t.str unary Node.null) l
    pure (Node.binary t.str unary rhs, l)
  else if isCompareToken next then
    .error (.danglingComparator l.ln l.posInLine)
  else if next = Tok.braceClose && parent.isRoot then
    .error (.invalidClosingBrace l.ln l.posInLine)
  else pure (unary, l)

/-- Mirrors `Parser.handleBinaryExpression`: selector constant, comparator
token (anything else demands `a value`), validated argument constant, and
then the same chaining/dangling/brace checks as the unary case.  A logic
operator after the completed comparison consumes that operator and parses
the entire remainder (one `bld` call) as the right operand of a new binary
node whose left operand is the comparison just built. -/
def handleBinaryExpression (bld : BuildFn) (t0 : Tok) (parent : Node) (l : Lexer) :
    Except PErr (Node × Lexer) := do
  let sel := Node.const false false true l.currentVal valueRecommendationString false
  let (t, l) ← consumeToken l
  if isCompareToken t then do
    let (con, l) ← handleArgumentConstant (selectValidator t) l
    let bin := Node.binary t.str sel con
    let (next, _) ← peekNextToken l
    if isLogicToken next then do
      let (t2, l) ← consumeToken l
      let (rhs, l) ← bld (Node.binary t2.str bin Node.null) l
      pure (Node.binary t2.str bin rhs, l)
    else if isCompareToken next then
      .error (.danglingComparator l.ln l.posInLine)
    else if next = Tok.braceClose && parent.isRoot then
      .error (.invalidClosingBrace l.ln l.posInLine)
    else pure (bin, l)
  else .error (.syntaxGotExpected l.ln l.posInLine t.str "a value")

/-- Mirrors `Parser.mergeSubExpression`: consume the logic operator, make
the just-closed group the left operand of a new binary node, parse the
entire remainder as its right operand, and attach the chain to the
parent. -/
def mergeSubExpression (bld : BuildFn) (sub parent : Node) (l : Lexer) :
    Except PErr (Node × Lexer) := do
  let (t, l) ← consumeToken l
  let (rhs, l) ← bld (Node.binary t.str sub Node.null) l
  pure (parent.add (Node.binary t.str sub rhs), l)

/-- Mirrors `Parser.build`, fuel-indexed (see the module comment): end and
impossible-token checks, then either a parenthesized sub-expression or a
raw value dispatched to the unary or binary handler; every handler recurses
through `build fuel`. -/
def build : Nat → Node → Lexer → Except PErr (Node × Lexer)
  | 0, _, _ => .error .outOfFuel
  | fuel + 1, parent, l => do
    let (t, l) ← consumeToken l
    match checkEndOrError t parent l with
    | (true, some e) => .error e
    | (true, none) => pure (parent, l)
    | (false, _) =>
      if t = Tok.braceOpen then do
        let (sub, l) ← handleSubExpression (build fuel) parent l
        let (t2, l) ← consumeToken l
        if t2 ≠ Tok.braceClose then .error (.unclosedBrace l.ln l.posInLine)
        else do
          let (next, _) ← peekNextToken l
          if isLogicToken next then mergeSubExpression (build fuel) sub parent l
          else if parent.nodeType = NodeType.expr then pure (parent.add sub, l)
          else pure (sub, l)
      else if t = Tok.value then do
        let (next, _) ← peekNextToken l
        let (nextExpr, l) ←
          if isSeperatorUnary next then handleUnaryExpression (build fuel) parent l
          else handleBinaryExpression (build fuel) t parent l
        if parent.isRoot then pure (parent.add nextExpr, l)
        else pure (nextExpr, l)
      else pure (parent, l)

/-- Mirrors `Parser.Parse` / the package-level `Parse`: a fresh lexer on the
input, a root `Expression`, and one `build` run.  The supplied fuel exceeds
any possible recursion depth (every nested `build` call consumes at least
one character first).  Go also returns the partially built expression next
to a non-nil error; the embedding keeps only the error. -/
def parseFiql (input : String) : Except PErr Node :=
  let l : Lexer := ⟨input.toList, 1, 0, ""⟩
  match build (4 * (input.length + 2)) (Node.expr true Node.null) l with
  | .ok (n, _) => .ok n
  | .error e => .error e

/-- Mirrors `ISO8601Duration` of duration.go.  The `float64` components are
modelled as exact rationals (see the module comment); `strRep` is the
source's `_string` field. -/
structure ISO8601Duration where
  Negative : Bool := false
  Years : ℚ := 0
  Months : ℚ := 0
  Weeks : ℚ := 0
  Days : ℚ := 0
  Hours : ℚ := 0
  Minutes : ℚ := 0
  Seconds : ℚ := 0
  strRep : String := ""
deriving Repr, DecidableEq

/-- Go `math.Round`: round half away from zero. -/
def goRound (q : ℚ) : ℤ :=
  if 0 ≤ q then ⌊q + (1 : ℚ) / 2⌋ else -⌊-q + (1 : ℚ) / 2⌋

/-- Mirrors `AsMilliseconds` of duration.go: the fixed-constant
approximation (`Months*2629800000`, `Years*2629800000*12`) with the other
units exact, rounded to the nearest millisecond; the `int64` conversion is
modelled as `ℤ` (all values considered are far below 2^63). -/
def ISO8601Duration.AsMilliseconds (i : ISO8601Duration) : ℤ :=
  goRound (i.Seconds * 1000 + i.Minutes * 60000 + i.Hours * 60000 * 60 +
    i.Days * 60000 * 60 * 24 + i.Weeks * 60000 * 60 * 24 * 7 +
    i.Months * 2629800000 + i.Years * 2629800000 * 12)

/-- Error values of the duration sub-parser, one per `fmt.Errorf` site of
`tryParseISO8601Duration` plus the `strconv.ParseFloat` failure bubbled up
from `readNr`. -/
inductive DurErr where
  | expectedP (got : Char)
  | parseFloatErr
  | unexpectedToken (got : Char)
deriving Repr, DecidableEq

/-- Outcome of `tryParseISO8601Duration`.  Go returns the pair
`(ISO8601Duration, error)`; `ok` is a nil error, `err` carries the
partially filled duration next to the error, and `panic` marks the
out-of-range index accesses Go would panic on (`input[pos]` with
`pos = len(input)`, reachable e.g. for the inputs `"-"` or `"P3"`). -/
inductive DurOutcome where
  | ok (d : ISO8601Duration)
  | err (d : ISO8601Duration) (e : DurErr)
  | panic
deriving Repr, DecidableEq

/-- Character-collection loop of `readNr` in duration.go: `+` is skipped,
`-`, `.` and digits are collected, anything else stops the loop.  The fuel
only serves termination; each step advances `pos`, so the `cs.length + 1`
supplied by `readNr` can never run out. -/
def readNrLoop (cs : List Char) : Nat → Nat → List Char → Nat × List Char
  | 0, pos, b => (pos, b)
  | fuel + 1, pos, b =>
      if h : pos < cs.length then
        let c := cs.get ⟨pos, h⟩
        if c = '+' then readNrLoop cs fuel (pos + 1) b
        else if c = '-' || c = '.' || c.isDigit then
          readNrLoop cs fuel (pos + 1) (b ++ [c])
        else (pos, b)
      else (pos, b)

/-- Model of `strconv.ParseFloat` on the character sets `readNr` collects
(digits, `-`, `.`): an optional leading sign, then digits with at most one
dot and at least one digit overall.  The value is the exact rational (Go
rounds to the nearest `float64`; every literal considered in the claims is
exactly representable). -/
def parseGoFloat (b : List Char) : Option ℚ :=
  match b with
  | [] => none
  | _ =>
      let (neg, rest) :=
        match b with
        | '-' :: r => (true, r)
        | '+' :: r => (false, r)
        | r => (false, r)
      let intPart := rest.takeWhile Char.isDigit
      let rest2 := rest.dropWhile Char.isDigit
      let (fracPart, rest3) :=
        match rest2 with
        | '.' :: r2 => (r2.takeWhile Char.isDigit, r2.dropWhile Char.isDigit)
        | r2 => ([], r2)
      if rest3.isEmpty && !(intPart.isEmpty && fracPart.isEmpty) then
        let iv : Nat := intPart.foldl (fun a c => a * 10 + (c.toNat - 48)) 0
        let fv : Nat := fracPart.foldl (fun a c => a * 10 + (c.toNat - 48)) 0
        let q : ℚ := mkRat (Int.ofNat (iv * 10 ^ fracPart.length + fv)) (10 ^ fracPart.length)
        some (if neg then -q else q)
      else none

/-- Mirrors `readNr` of duration.go: collect characters, then parse them as
a float (`none` is the `strconv` error). -/
def readNr (cs : List Char) (pos : Nat) : Nat × Option ℚ :=
  let (pos', b) := readNrLoop cs (cs.length + 1) pos []
  (pos', parseGoFloat b)

/-- Unit-marker switch of `tryParseISO8601Duration`: `M` means minutes in
time mode and months otherwise; an unknown marker is the
`unexpected token` error (`none`). -/
def updateDur (d : ISO8601Duration) (isTime : Bool) (nr : ℚ) (mark : Char) :
    Option ISO8601Duration :=
  if mark = 'Y' then some { d with Years := nr }
  else if mark = 'M' then
    some (if isTime then { d with Minutes := nr } else { d with Months := nr })
  else if mark = 'W' then some { d with Weeks := nr }
  else if mark = 'D' then some { d with Days := nr }
  else if mark = 'H' then some { d with Hours := nr }
  else if mark = 'S' then some { d with Seconds := nr }
  else none

/-- Main loop of `tryParseISO8601Duration`: optionally switch into time
mode at `T`, read a number, then read the unit marker (Go indexes
`input[pos]` without a bounds check there — the `panic` outcome).  The fuel
only serves termination; each iteration advances `pos`, so fuel
`cs.length + 1` can never run out. -/
def durLoop (cs : List Char) (pos : Nat) (isTime : Bool) (d : ISO8601Duration)
    (fuel : Nat) : DurOutcome :=
  match fuel with
  | 0 => .panic
  | fuel + 1 =>
    if h : pos < cs.length then
      let (pos, isTime) :=
        if cs.get ⟨pos, h⟩ = 'T' then (pos + 1, true) else (pos, isTime)
      let (pos2, nr?) := readNr cs pos
      match nr? with
      | none => .err d .parseFloatErr
      | some nr =>
          if h2 : pos2 < cs.length then
            let mark := cs.get ⟨pos2, h2⟩
            match updateDur d isTime nr mark with
            | some d' => durLoop cs (pos2 + 1) isTime d' fuel
            | none => .err d (.unexpectedToken mark)
          else .panic
    else .ok d

/-- Mirrors `tryParseISO8601Duration` of duration.go: the empty string is
the zero duration with no error; otherwise `_string` is set, an optional
sign is read (`-` sets `Negative`), `P` is required (else the
`expected P but got` error) and the unit loop runs. -/
def tryParseISO8601Duration (input : String) : DurOutcome :=
  let cs := input.toList
  if cs.length = 0 then .ok {}
  else
    let d : ISO8601Duration := { strRep := input }
    let (pos, d) :=
      if cs.head? = some '-' then (1, { d with Negative := true })
      else if cs.head? = some '+' then (1, d)
      else (0, d)
    if h : pos < cs.length then
      if cs.get ⟨pos, h⟩ ≠ 'P' then .err d (.expectedP (cs.get ⟨pos, h⟩))
      else durLoop cs (pos + 1) false d (cs.length + 1)
    else .panic

/-- Dropping one optional leading sign character, as
`tryParseISO8601Duration` does before requiring `P`. -/
def dropSign : List Char → List Char
  | c :: r => if c = '-' || c = '+' then r else c :: r
  | [] => []

/-- A literal that begins with `P` after its optional sign. -/
def beginsWithPAfterSign (s : String) : Bool :=
  match dropSign s.toList with
  | c :: _ => c = 'P'
  | [] => false

/-- Selector constant as built by `handleBinaryExpression`
(`&constantExpression{value: lastValue, selector: true,
recommended: ValueRecommendationString}`). -/
def selNode (v : String) : Node :=
  Node.const false false true v valueRecommendationString false

/-- Argument constant without wildcards classified as a string. -/
def argNode (v : String) : Node :=
  Node.const false false false v valueRecommendationString false

/- ------------------------------------------------------------------ -/
/- Theorems                                                           -/
/- ------------------------------------------------------------------ -/

/-- C1.  Parsing `a==b;c==d,f==g` yields the right-nested tree
`AND(a==b, OR(c==d, f==g))` under the root expression; and in general,
whenever a logic operator follows a completed comparison,
`handleBinaryExpression` consumes that operator and parses the entire
remainder of the input (one recursive `build` call) as the right operand of
a new binary node whose left operand is the comparison just parsed — chains
are therefore right-nested binary nodes, never flat n-ary nodes. -/
theorem c1_chain_right_nested :
    parseFiql "a==b;c==d,f==g" =
      .ok (Node.expr true
        (Node.binary "AND"
          (Node.binary "==" (selNode "a") (argNode "b"))
          (Node.binary "OR"
            (Node.binary "==" (selNode "c") (argNode "d"))
            (Node.binary "==" (selNode "f") (argNode "g"))))) ∧
    ∀ (bld : BuildFn) (t0 : Tok) (parent : Node) (l l₁ l₂ l₃ : Lexer)
      (tc t2 : Tok) (con : Node),
      consumeToken l = .ok (tc, l₁) →
      isCompareToken tc = true →
      handleArgumentConstant (selectValidator tc) l₁ = .ok (con, l₂) →
      consumeToken l₂ = .ok (t2, l₃) →
      isLogicToken t2 = true →
      handleBinaryExpression bld t0 parent l =
        (match bld
            (Node.binary t2.str
              (Node.binary tc.str (selNode l.currentVal) con) Node.null) l₃ with
         | .ok (rhs, l') =>
             .ok (Node.binary t2.str
               (Node.binary tc.str (selNode l.currentVal) con) rhs, l')
         | .error e => .error e) := by
  constructor
  · decide
  · intro bld t0 parent l l₁ l₂ l₃ tc t2 con h1 h2 h3 h4 h5
    simp only [handleBinaryExpression, h1, h2, h3, h4, h5, peekNextToken,
      selNode, bind, Except.bind, pure, Except.pure, if_true]
    cases hb : bld
        (Node.binary t2.str
          (Node.binary tc.str
            (Node.const false false true l.currentVal valueRecommendationString false)
            con) Node.null) l₃ with
    | ok p => cases p; simp
    | error e => simp

/-- Witness for the hypotheses of `c1_chain_right_nested`, instantiated at
the state reached inside `parseFiql "a==b;c==d,f==g"` right after the
selector `a` has been read. -/
theorem c1_chain_right_nested_witness :
    (consumeToken ⟨"==b;c==d,f==g".toList, 1, 1, "a"⟩ =
        .ok (.compareEqual, ⟨"b;c==d,f==g".toList, 1, 3, "a"⟩) ∧
      isCompareToken .compareEqual = true ∧
      handleArgumentConstant (selectValidator .compareEqual)
          ⟨"b;c==d,f==g".toList, 1, 3, "a"⟩ =
        .ok (argNode "b", ⟨";c==d,f==g".toList, 1, 4, "b"⟩) ∧
      consumeToken ⟨";c==d,f==g".toList, 1, 4, "b"⟩ =
        .ok (.tAND, ⟨"c==d,f==g".toList, 1, 5, "b"⟩) ∧
      isLogicToken .tAND = true) ∧
    handleBinaryExpression (build 30) .value (Node.expr true Node.null)
        ⟨"==b;c==d,f==g".toList, 1, 1, "a"⟩ =
      (match build 30
          (Node.binary Tok.tAND.str
            (Node.binary Tok.compareEqual.str (selNode "a") (argNode "b"))
            Node.null) ⟨"c==d,f==g".toList, 1, 5, "b"⟩ with
       | .ok (rhs, l') =>
           .ok (Node.binary Tok.tAND.str
             (Node.binary Tok.compareEqual.str (selNode "a") (argNode "b")) rhs, l')
       | .error e => .error e) :=
  ⟨by refine ⟨by decide, by decide, by decide, by decide, by decide⟩,
   c1_chain_right_nested.2 (build 30) .value (Node.expr true Node.null)
     ⟨"==b;c==d,f==g".toList, 1, 1, "a"⟩ ⟨"b;c==d,f==g".toList, 1, 3, "a"⟩
     ⟨";c==d,f==g".toList, 1, 4, "b"⟩ ⟨"c==d,f==g".toList, 1, 5, "b"⟩
     .compareEqual .tAND (argNode "b")
     (by decide) (by decide) (by decide) (by decide) (by decide)⟩

/-- C2.  With the `=in=` comparator (validator modelled from the spec, see
`inExpressionValidator`): a literal wrapped in `[` `]` is accepted with
recommended type `tuple`; a literal not so wrapped makes the parse fail
with the syntax error naming the literal and the hint
`in clause [a+b+c]` (rendered `... but expected in clause [a+b+c]`), as in
`parseFiql "column=in=123"`. -/
theorem c2_in_clause_tuple :
    parseFiql "column=in=[a+b]" =
      .ok (Node.expr true (Node.binary "in" (selNode "column")
        (Node.const false false false "[a+b]" valueRecommendationTuple false))) ∧
    parseFiql "column=in=123" =
      .error (.syntaxGotExpected 1 13 "123" "in clause [a+b+c]") ∧
    render (.syntaxGotExpected 1 13 "123" "in clause [a+b+c]") =
      "ln:1:13 syntax error (got `123` but expected in clause [a+b+c])" ∧
    (∀ s : String,
      ((inExpressionValidator s).1 = true ↔
        (s.toList.head? = some '[' ∧ s.toList.getLast? = some ']')) ∧
      ((inExpressionValidator s).1 = true →
        (inExpressionValidator s).2.1 = valueRecommendationTuple) ∧
      ((inExpressionValidator s).1 = false →
        (inExpressionValidator s).2.2 = "in clause [a+b+c]")) ∧
    (∀ (bld : BuildFn) (t0 : Tok) (parent : Node) (l l₁ l₂ : Lexer) (r m : String),
      consumeToken l = .ok (.compareIn, l₁) →
      consumeToken l₁ = .ok (.value, l₂) →
      inExpressionValidator l₂.currentVal = (false, r, m) →
      handleBinaryExpression bld t0 parent l =
        .error (.syntaxGotExpected l₂.ln l₂.posInLine l₂.currentVal m)) := by
  refine ⟨by decide, by decide, by decide, ?_, ?_⟩
  · intro s
    simp only [inExpressionValidator]
    split <;> simp_all
  · intro bld t0 parent l l₁ l₂ r m h1 h2 h3
    simp only [handleBinaryExpression, handleArgumentConstant, h1, h2, h3,
      selectValidator, isNumberOrDateComparision, isInToken, isCompareToken,
      bind, Except.bind, pure, Except.pure]
    simp [h3]

/-- Witness for the hypotheses of `c2_in_clause_tuple`, instantiated at the
state reached inside `parseFiql "column=in=123"` after the selector. -/
theorem c2_in_clause_tuple_witness :
    (consumeToken ⟨"=in=123".toList, 1, 6, "column"⟩ =
        .ok (.compareIn, ⟨"123".toList, 1, 10, "column"⟩) ∧
      consumeToken ⟨"123".toList, 1, 10, "column"⟩ =
        .ok (.value, ⟨[], 1, 13, "123"⟩) ∧
      inExpressionValidator "123" =
        (false, valueRecommendationString, "in clause [a+b+c]")) ∧
    handleBinaryExpression (build 5) .value (Node.expr true Node.null)
        ⟨"=in=123".toList, 1, 6, "column"⟩ =
      .error (.syntaxGotExpected 1 13 "123" "in clause [a+b+c]") :=
  ⟨⟨by decide, by decide, by decide⟩,
   c2_in_clause_tuple.2.2.2.2 (build 5) .value (Node.expr true Node.null)
     ⟨"=in=123".toList, 1, 6, "column"⟩ ⟨"123".toList, 1, 10, "column"⟩
     ⟨[], 1, 13, "123"⟩ valueRecommendationString "in clause [a+b+c]"
     (by decide) (by decide) (by decide)⟩

/-- Helper: the relational comparators are comparison tokens. -/
theorem isCompareToken_of_numberOrDate (t : Tok)
    (h : isNumberOrDateComparision t = true) : isCompareToken t = true := by
  cases t <;> simp_all [isNumberOrDateComparision, isCompareToken]

/-- C3.  The relational comparators (`=gt=`, `=ge=`, `=lt=`, `=le=`) use
`numberOrDateExpressionValidator`, which accepts a literal exactly when it
matches the signed number pattern, an RFC 3339 date-time, or the ISO-8601
duration pattern, tested in that order, with the first match fixing the
recommended type (`number`, `datetime`, `duration`); any other literal
makes the parse fail with a syntax error naming the literal and the hint
`number or date or duration`.  The first component characterises the
validator; the next two show how `handleBinaryExpression` wires a
relational comparator to it (rejection and acceptance); the remaining ones
evaluate whole parses on one literal of each category. -/
theorem c3_relational_validation :
    (∀ s : String,
      ((numberOrDateExpressionValidator s).1 = true ↔
        (numericRegexMatch s || isDateValue s || durationRegexMatch s) = true) ∧
      (numericRegexMatch s = true →
        numberOrDateExpressionValidator s = (true, valueRecommendationNumber, "")) ∧
      (numericRegexMatch s = false → isDateValue s = true →
        numberOrDateExpressionValidator s = (true, valueRecommendationDateTime, "")) ∧
      (numericRegexMatch s = false → isDateValue s = false →
          durationRegexMatch s = true →
        numberOrDateExpressionValidator s = (true, valueRecommendationDuration, "")) ∧
      (numericRegexMatch s = false → isDateValue s = false →
          durationRegexMatch s = false →
        numberOrDateExpressionValidator s =
          (false, valueRecommendationString, "number or date or duration"))) ∧
    (∀ (bld : BuildFn) (t0 : Tok) (parent : Node) (l l₁ l₂ : Lexer)
      (tc : Tok) (r m : String),
      consumeToken l = .ok (tc, l₁) →
      isNumberOrDateComparision tc = true →
      consumeToken l₁ = .ok (.value, l₂) →
      numberOrDateExpressionValidator l₂.currentVal = (false, r, m) →
      handleBinaryExpression bld t0 parent l =
        .error (.syntaxGotExpected l₂.ln l₂.posInLine l₂.currentVal m)) ∧
    (∀ (bld : BuildFn) (t0 : Tok) (parent : Node) (l l₁ l₂ l₃ : Lexer)
      (tc : Tok) (rec hint : String),
      consumeToken l = .ok (tc, l₁) →
      isNumberOrDateComparision tc = true →
      consumeToken l₁ = .ok (.value, l₂) →
      numberOrDateExpressionValidator l₂.currentVal = (true, rec, hint) →
      consumeToken l₂ = .ok (.eof, l₃) →
      handleBinaryExpression bld t0 parent l =
        .ok (Node.binary tc.str (selNode l.currentVal)
          (Node.const false false false l₂.currentVal rec false), l₂)) ∧
    parseFiql "column=gt=1.1" =
      .ok (Node.expr true (Node.binary ">" (selNode "column")
        (Node.const false false false "1.1" valueRecommendationNumber false))) ∧
    parseFiql "updated=gt=2003-12-13T00:00:00Z" =
      .ok (Node.expr true (Node.binary ">" (selNode "updated")
        (Node.const false false false "2003-12-13T00:00:00Z"
          valueRecommendationDateTime false))) ∧
    parseFiql "column=lt=P3DT4H59M" =
      .ok (Node.expr true (Node.binary "<" (selNode "column")
        (Node.const false false false "P3DT4H59M"
          valueRecommendationDuration false))) ∧
    parseFiql "column=ge=invalid" =
      .error (.syntaxGotExpected 1 17 "invalid" "number or date or duration") := by
  refine ⟨?_, ?_, ?_, by decide, by decide, by decide, by decide⟩
  · intro s
    simp only [numberOrDateExpressionValidator]
    split_ifs <;> simp_all
  · intro bld t0 parent l l₁ l₂ tc r m h1 h2 h3 h4
    have hc := isCompareToken_of_numberOrDate tc h2
    simp only [handleBinaryExpression, handleArgumentConstant, h1, h2, h3, hc,
      selectValidator, bind, Except.bind, pure, Except.pure, if_true]
    simp [h4]
  · intro bld t0 parent l l₁ l₂ l₃ tc rec hint h1 h2 h3 h4 h5
    have hc := isCompareToken_of_numberOrDate tc h2
    simp only [handleBinaryExpression, handleArgumentConstant, h1, h2, h3, hc,
      selectValidator, bind, Except.bind, pure, Except.pure, if_true,
      peekNextToken, selNode]
    simp [h4, h5, isLogicToken, isCompareToken]

/-- Witness for the hypotheses of `c3_relational_validation`, instantiated
at the state reached inside `parseFiql "column=ge=invalid"` after the
selector. -/
theorem c3_relational_validation_witness :
    (consumeToken ⟨"=ge=invalid".toList, 1, 6, "column"⟩ =
        .ok (.compareGte, ⟨"invalid".toList, 1, 10, "column"⟩) ∧
      isNumberOrDateComparision .compareGte = true ∧
      consumeToken ⟨"invalid".toList, 1, 10, "column"⟩ =
        .ok (.value, ⟨[], 1, 17, "invalid"⟩) ∧
      numberOrDateExpressionValidator "invalid" =
        (false, valueRecommendationString, "number or date or duration")) ∧
    handleBinaryExpression (build 5) .value (Node.expr true Node.null)
        ⟨"=ge=invalid".toList, 1, 6, "column"⟩ =
      .error (.syntaxGotExpected 1 17 "invalid" "number or date or duration") :=
  ⟨⟨by decide, by decide, by decide, by decide⟩,
   c3_relational_validation.2.1 (build 5) .value (Node.expr true Node.null)
     ⟨"=ge=invalid".toList, 1, 6, "column"⟩ ⟨"invalid".toList, 1, 10, "column"⟩
     ⟨[], 1, 17, "invalid"⟩ .compareGte valueRecommendationString
     "number or date or duration"
     (by decide) (by decide) (by decide) (by decide)⟩

/-- C4 counterexample.  The claim says that reaching end of input
mid-comparator produces a lexical error that reports the partial comparator
text and the full set of valid comparators; in fact `readComparator`
returns the bare `ErrUnexpectedEOF`, whose entire message is
`unexpected end of file` — no position, no partial text, no comparator
list — as parsing `a=` shows. -/
theorem c4_eof_counterexample :
    parseFiql "a=" = .error .unexpectedEOF ∧
    render .unexpectedEOF = "unexpected end of file" := by
  exact ⟨by decide, by decide⟩

/-- C4 amended.  When the lexer starts a comparator at `=` or `!`, it
greedily reads characters from the set `{=,g,l,t,e,q,i,n}` until a second
`=`, then maps the accumulated text case-insensitively to one of the eight
comparators; a character outside that set fails the parse with a lexical
error reporting the partial comparator text read so far (including the
offending character) and the full set of valid comparators.  Reaching end
of input mid-comparator, however, fails with the bare unexpected-EOF error
that carries no partial text (see `c4_eof_counterexample`).  The parts:
out-of-set error, greedy step, stop-and-map at `=`, EOF, the mapping table
(as an iff over the lowercased text), one case-insensitive mapping
instance, and the whole-parse behaviour on `title=ffoo*` with its exact
rendered message. -/
theorem c4_comparator_lexing :
    (∀ (b rs : List Char) (ln col : Nat) (cv : String) (r : Char),
      validCmpChar r = false →
      readComparatorLoop b (r :: rs) ln col cv =
        .error (.unexpectedInput ln col (String.mk (b ++ [r])))) ∧
    (∀ (b rs : List Char) (ln col : Nat) (cv : String) (r : Char),
      validCmpChar r = true → r ≠ '=' →
      readComparatorLoop b (r :: rs) ln col cv =
        readComparatorLoop (b ++ [r]) rs ln (col + 1) cv) ∧
    (∀ (b rs : List Char) (ln col : Nat) (cv : String),
      readComparatorLoop b ('=' :: rs) ln col cv =
        (match toCompareToken ⟨rs, ln, col + 1, cv⟩ (String.mk (b ++ ['='])) with
         | .ok t => .ok (t, ⟨rs, ln, col + 1, cv⟩)
         | .error e => .error e)) ∧
    (∀ (b : List Char) (ln col : Nat) (cv : String),
      readComparatorLoop b [] ln col cv = .error .unexpectedEOF) ∧
    (∀ (l : Lexer) (s : String),
      (goToLower s = "==" → toCompareToken l s = .ok .compareEqual) ∧
      (goToLower s = "!=" → toCompareToken l s = .ok .compareNotEqual) ∧
      (goToLower s = "=gt=" → toCompareToken l s = .ok .compareGt) ∧
      (goToLower s = "=ge=" → toCompareToken l s = .ok .compareGte) ∧
      (goToLower s = "=lt=" → toCompareToken l s = .ok .compareLt) ∧
      (goToLower s = "=le=" → toCompareToken l s = .ok .compareLte) ∧
      (goToLower s = "=in=" → toCompareToken l s = .ok .compareIn) ∧
      (goToLower s = "=q=" → toCompareToken l s = .ok .compareQ) ∧
      (goToLower s ∉ ["==", "!=", "=gt=", "=ge=", "=lt=", "=le=", "=in=", "=q="] →
        toCompareToken l s = .error (.unexpectedInput l.ln l.posInLine s))) ∧
    toCompareToken ⟨[], 1, 0, ""⟩ "=GT=" = .ok .compareGt ∧
    parseFiql "title=ffoo*" = .error (.unexpectedInput 1 6 "=f") ∧
    render (.unexpectedInput 1 6 "=f") =
      "ln:1:6 unexpected input (got `=f` but expected one of ==,!=,=gt=,=ge=,=lt=,=le=,=in=,=q=)" := by
  refine ⟨?_, ?_, ?_, ?_, ?_, by decide, by decide, by decide⟩
  · intro b rs ln col cv r h
    simp [readComparatorLoop, h]
  · intro b rs ln col cv r h hne
    have hn : r ≠ '\n' := by
      intro he
      rw [he] at h
      exact absurd h (by decide)
    simp [readComparatorLoop, h, hne, stepPos, hn]
  · intro b rs ln col cv
    simp [readComparatorLoop, validCmpChar, stepPos]
  · intro b ln col cv
    simp [readComparatorLoop]
  · intro l s
    refine ⟨fun h => by simp [toCompareToken, h], fun h => by simp [toCompareToken, h],
      fun h => by simp [toCompareToken, h], fun h => by simp [toCompareToken, h],
      fun h => by simp [toCompareToken, h], fun h => by simp [toCompareToken, h],
      fun h => by simp [toCompareToken, h], fun h => by simp [toCompareToken, h],
      fun h => ?_⟩
    simp only [List.mem_cons, List.not_mem_nil, or_false, not_or] at h
    obtain ⟨h1, h2, h3, h4, h5, h6, h7, h8⟩ := h
    simp [toCompareToken, h1, h2, h3, h4, h5, h6, h7, h8]

/-- Witness for the hypotheses of `c4_comparator_lexing`, instantiated at
the state reached while lexing the comparator of `title=ffoo*`. -/
theorem c4_comparator_lexing_witness :
    (validCmpChar 'f' = false ∧ validCmpChar 'g' = true ∧ ('g' ≠ '=')) ∧
    readComparatorLoop ['='] ('f' :: "foo*".toList) 1 6 "title" =
      .error (.unexpectedInput 1 6 (String.mk ['=', 'f'])) ∧
    readComparatorLoop ['='] ('g' :: "t=1".toList) 1 6 "title" =
      readComparatorLoop ['=', 'g'] "t=1".toList 1 7 "title" :=
  ⟨⟨by decide, by decide, by decide⟩,
   c4_comparator_lexing.1 ['='] "foo*".toList 1 6 "title" 'f' (by decide),
   c4_comparator_lexing.2.1 ['='] "t=1".toList 1 6 "title" 'g' (by decide)
     (by decide)⟩

/-- C5.  Parsing `(a==b;c==d),f==g` yields `OR(Group(AND(a==b,c==d)),
f==g)` under the root; and in general, after a parenthesized group is
closed, a following logic operator routes `build` into
`mergeSubExpression`, which consumes the operator and makes the group the
left operand of a new binary node whose right operand is the recursively
parsed remainder — exactly the chaining of the non-grouped case. -/
theorem c5_group_then_chain :
    parseFiql "(a==b;c==d),f==g" =
      .ok (Node.expr true
        (Node.binary "OR"
          (Node.expr false
            (Node.binary "AND"
              (Node.binary "==" (selNode "a") (argNode "b"))
              (Node.binary "==" (selNode "c") (argNode "d"))))
          (Node.binary "==" (selNode "f") (argNode "g")))) ∧
    (∀ (bld : BuildFn) (sub parent : Node) (l l₁ : Lexer) (t : Tok),
      consumeToken l = .ok (t, l₁) →
      mergeSubExpression bld sub parent l =
        (match bld (Node.binary t.str sub Node.null) l₁ with
         | .ok (rhs, l') => .ok (parent.add (Node.binary t.str sub rhs), l')
         | .error e => .error e)) ∧
    (∀ (fuel : Nat) (parent : Node) (l l₁ l₂ l₃ l₄ : Lexer) (sub : Node) (t2 : Tok),
      consumeToken l = .ok (.braceOpen, l₁) →
      handleSubExpression (build fuel) parent l₁ = .ok (sub, l₂) →
      consumeToken l₂ = .ok (.braceClose, l₃) →
      consumeToken l₃ = .ok (t2, l₄) →
      isLogicToken t2 = true →
      build (fuel + 1) parent l = mergeSubExpression (build fuel) sub parent l₃) := by
  refine ⟨by decide, ?_, ?_⟩
  · intro bld sub parent l l₁ t h1
    simp only [mergeSubExpression, h1, bind, Except.bind, pure, Except.pure]
    cases hb : bld (Node.binary t.str sub Node.null) l₁ with
    | ok p => cases p; simp
    | error e => simp
  · intro fuel parent l l₁ l₂ l₃ l₄ sub t2 h1 h2 h3 h4 h5
    simp only [h5, build, h1, h2, h3, h4, peekNextToken,
      bind, Except.bind, pure, Except.pure]
    simp [checkEndOrError, checkForEOF, checkImpossibleTokensOnEnter,
      isLogicToken, isCompareToken, h5]

/-- Witness for the hypotheses of `c5_group_then_chain`, instantiated at
the states of `parseFiql "(a==b;c==d),f==g"`. -/
theorem c5_group_then_chain_witness :
    (consumeToken ⟨"(a==b;c==d),f==g".toList, 1, 0, ""⟩ =
        .ok (.braceOpen, ⟨"a==b;c==d),f==g".toList, 1, 1, ""⟩) ∧
      handleSubExpression (build 40) (Node.expr true Node.null)
          ⟨"a==b;c==d),f==g".toList, 1, 1, ""⟩ =
        .ok (Node.expr false
            (Node.binary "AND"
              (Node.binary "==" (selNode "a") (argNode "b"))
              (Node.binary "==" (selNode "c") (argNode "d"))),
          ⟨"),f==g".toList, 1, 10, "d"⟩) ∧
      consumeToken ⟨"),f==g".toList, 1, 10, "d"⟩ =
        .ok (.braceClose, ⟨",f==g".toList, 1, 11, "d"⟩) ∧
      consumeToken ⟨",f==g".toList, 1, 11, "d"⟩ =
        .ok (.tOR, ⟨"f==g".toList, 1, 12, "d"⟩) ∧
      isLogicToken .tOR = true) ∧
    build 41 (Node.expr true Node.null) ⟨"(a==b;c==d),f==g".toList, 1, 0, ""⟩ =
      mergeSubExpression (build 40)
        (Node.expr false
          (Node.binary "AND"
            (Node.binary "==" (selNode "a") (argNode "b"))
            (Node.binary "==" (selNode "c") (argNode "d"))))
        (Node.expr true Node.null) ⟨",f==g".toList, 1, 11, "d"⟩ :=
  ⟨⟨by decide, by decide, by decide, by decide, by decide⟩,
   c5_group_then_chain.2.2 40 (Node.expr true Node.null)
     ⟨"(a==b;c==d),f==g".toList, 1, 0, ""⟩ ⟨"a==b;c==d),f==g".toList, 1, 1, ""⟩
     ⟨"),f==g".toList, 1, 10, "d"⟩ ⟨",f==g".toList, 1, 11, "d"⟩
     ⟨"f==g".toList, 1, 12, "d"⟩
     (Node.expr false
       (Node.binary "AND"
         (Node.binary "==" (selNode "a") (argNode "b"))
         (Node.binary "==" (selNode "c") (argNode "d")))) .tOR
     (by decide) (by decide) (by decide) (by decide) (by decide)⟩

/-- C6 counterexample.  The claim reads the three inputs `a==b;`, `,a==b`,
`a==` against the three errors dangling-operator / dangling-comparator /
expected-value "at the exact trailing position"; but `,a==b` fails with a
dangling-OPERATOR error at the position of the leading comma (line 1,
column 1), not with a dangling-comparator error at the trailing position
(column 5). -/
theorem c6_leading_comma_counterexample :
    parseFiql ",a==b" = .error (.danglingOperator 1 1) ∧
    (Except.error (PErr.danglingOperator 1 1) ≠
      (Except.error (PErr.danglingComparator 1 5) : Except PErr Node)) := by
  exact ⟨by decide, by decide⟩

/-- C6 amended.  Parse fails with the specific diagnostic on each malformed
input: `a==b;` with a dangling-operator error at the trailing position 1:5;
`,a==b` with a dangling-operator error at the leading comma 1:1; `a==` with
the expected-a-value syntax error at the trailing position 1:3; `(a==b` as
an unclosed brace (1:5); `a==b)` and `()` as invalid closing braces (1:4
and 1:2). -/
theorem c6_malformed_diagnostics :
    parseFiql "a==b;" = .error (.danglingOperator 1 5) ∧
    parseFiql ",a==b" = .error (.danglingOperator 1 1) ∧
    parseFiql "a==" = .error (.syntaxGotExpected 1 3 "eof" "a value") ∧
    parseFiql "(a==b" = .error (.unclosedBrace 1 5) ∧
    parseFiql "a==b)" = .error (.invalidClosingBrace 1 4) ∧
    parseFiql "()" = .error (.invalidClosingBrace 1 2) ∧
    render (.danglingOperator 1 5) = "ln:1:5 dangling operator" ∧
    render (.syntaxGotExpected 1 3 "eof" "a value") =
      "ln:1:3 syntax error (got `eof` but expected a value)" ∧
    render (.unclosedBrace 1 5) = "ln:1:5 syntax error (unclosed brace `)` )" ∧
    render (.invalidClosingBrace 1 2) =
      "ln:1:2 syntax error (invalid closing brace `)` )" := by
  refine ⟨by decide, by decide, by decide, by decide, by decide, by decide,
    by decide, by decide, by decide, by decide⟩

/-- C7 counterexample.  The claim says the character following a backslash
is always included literally in the stored value; but `readValue` checks
for white space before it looks at the escape flag, so a backslash before a
space does not protect it: in `column==va\ lue` the argument value stored
is `va` (the escaped space terminated the value), not `va lue`. -/
theorem c7_escaped_space_counterexample :
    parseFiql "column==va\\ lue" =
      .ok (Node.expr true
        (Node.binary "==" (selNode "column") (argNode "va"))) ∧
    "va" ≠ "va lue" := by
  exact ⟨by decide, by decide⟩

/-- C7 amended.  While lexing a raw value a backslash escapes the following
character: the backslash is consumed and dropped from the stored value, and
the escaped character — even a delimiter — is included literally, provided
it is not white space (an escaped white-space character still terminates
the value, see `c7_escaped_space_counterexample`).  In particular
`column==va\,lue,b==a` parses with first argument `va,lue` (comma
preserved), joined by OR to `b == a`. -/
theorem c7_escape_behavior :
    parseFiql "column==va\\,lue,b==a" =
      .ok (Node.expr true
        (Node.binary "OR"
          (Node.binary "==" (selNode "column") (argNode "va,lue"))
          (Node.binary "==" (selNode "b") (argNode "a")))) ∧
    (∀ (b rest : List Char) (ln col : Nat) (cv : String) (c : Char),
      goIsSpace c = false →
      readValueLoop b false ('\\' :: c :: rest) ln col cv =
        readValueLoop (b ++ [c]) false rest ln (col + 2) cv) := by
  refine ⟨by decide, ?_⟩
  intro b rest ln col cv c hc
  have hn : c ≠ '\n' := by
    intro he
    rw [he] at hc
    exact absurd hc (by decide)
  have hs1 : goIsSpace '\\' = false := by decide
  have hd1 : isDelim '\\' = false := by decide
  simp [readValueLoop, stepPos, hs1, hd1, hc, hn]

/-- Witness for the hypotheses of `c7_escape_behavior`, instantiated at the
escape inside `parseFiql "column==va\,lue,b==a"`: the backslash is dropped
and the comma — a delimiter — is appended to the value buffer. -/
theorem c7_escape_behavior_witness :
    goIsSpace ',' = false ∧
    readValueLoop ['v', 'a'] false ('\\' :: ',' :: "lue,b==a".toList) 1 10 "column" =
      readValueLoop ['v', 'a', ','] false "lue,b==a".toList 1 12 "column" :=
  ⟨by decide,
   c7_escape_behavior.2 ['v', 'a'] "lue,b==a".toList 1 10 "column" ',' (by decide)⟩

/-- C8.  `parseFiql "title==foo*"` stores argument value `foo` (no asterisk)
with suffix-wildcard true and prefix-wildcard false; `parseFiql
"title==*bar"` stores `bar` with prefix-wildcard true; and in general
`handleArgumentConstant` tolerates one optional wildcard token immediately
before the value (setting the prefix flag) and one immediately after it
(setting the suffix flag). -/
theorem c8_wildcards :
    parseFiql "title==foo*" =
      .ok (Node.expr true
        (Node.binary "==" (selNode "title")
          (Node.const false true false "foo" valueRecommendationString false))) ∧
    parseFiql "title==*bar" =
      .ok (Node.expr true
        (Node.binary "==" (selNode "title")
          (Node.const true false false "bar" valueRecommendationString false))) ∧
    (∀ (validator : ArgValidator) (l l₁ l₂ l₃ : Lexer) (rec hint : String),
      consumeToken l = .ok (.wildcard, l₁) →
      consumeToken l₁ = .ok (.value, l₂) →
      validator l₂.currentVal = (true, rec, hint) →
      consumeToken l₂ = .ok (.wildcard, l₃) →
      handleArgumentConstant validator l =
        .ok (Node.const true true false l₂.currentVal rec false, l₃)) := by
  refine ⟨by decide, by decide, ?_⟩
  intro validator l l₁ l₂ l₃ rec hint h1 h2 h3 h4
  simp only [handleArgumentConstant, h1, h2, peekNextToken, h4,
    bind, Except.bind, pure, Except.pure]
  simp [h3]

/-- Witness for the hypotheses of `c8_wildcards`, instantiated at the state
reached inside `parseFiql "title==*foo*"` after the comparator. -/
theorem c8_wildcards_witness :
    (consumeToken ⟨"*foo*".toList, 1, 7, "title"⟩ =
        .ok (.wildcard, ⟨"foo*".toList, 1, 8, "title"⟩) ∧
      consumeToken ⟨"foo*".toList, 1, 8, "title"⟩ =
        .ok (.value, ⟨"*".toList, 1, 11, "foo"⟩) ∧
      defaultValidator "foo" = (true, valueRecommendationString, "") ∧
      consumeToken ⟨"*".toList, 1, 11, "foo"⟩ =
        .ok (.wildcard, ⟨[], 1, 12, "foo"⟩)) ∧
    handleArgumentConstant defaultValidator ⟨"*foo*".toList, 1, 7, "title"⟩ =
      .ok (Node.const true true false "foo" valueRecommendationString false,
        ⟨[], 1, 12, "foo"⟩) :=
  ⟨⟨by decide, by decide, by decide, by decide⟩,
   c8_wildcards.2.2 defaultValidator ⟨"*foo*".toList, 1, 7, "title"⟩
     ⟨"foo*".toList, 1, 8, "title"⟩ ⟨"*".toList, 1, 11, "foo"⟩ ⟨[], 1, 12, "foo"⟩
     valueRecommendationString ""
     (by decide) (by decide) (by decide) (by decide)⟩

/-- C9.  `tryParseISO8601Duration "P3DT4H59M"` succeeds with Days 3,
Hours 4, Minutes 59 and every other component zero, and `AsMilliseconds`
on that result is exactly `277140000 = 3*86400000 + 4*3600000 + 59*60000`;
in general `AsMilliseconds` equals the rounded sum with 1 hour = 3 600 000
ms, 1 day = 24 h, 1 week = 7 days, the fixed constant 1 month =
2 629 800 000 ms and 1 year = 12 months. -/
theorem c9_duration_roundtrip :
    tryParseISO8601Duration "P3DT4H59M" =
      .ok { Days := 3, Hours := 4, Minutes := 59, strRep := "P3DT4H59M" } ∧
    ISO8601Duration.AsMilliseconds
      { Days := 3, Hours := 4, Minutes := 59, strRep := "P3DT4H59M" } = 277140000 ∧
    (277140000 : ℤ) = 3 * 86400000 + 4 * 3600000 + 59 * 60000 ∧
    (∀ d : ISO8601Duration,
      d.AsMilliseconds =
        goRound (d.Seconds * 1000 + d.Minutes * 60000 + d.Hours * 3600000 +
          d.Days * 86400000 + d.Weeks * 604800000 + d.Months * 2629800000 +
          d.Years * 31557600000)) := by
  refine ⟨by decide, ?_, by norm_num, ?_⟩
  · simp only [ISO8601Duration.AsMilliseconds, goRound]
    norm_num
  · intro d
    simp only [ISO8601Duration.AsMilliseconds]
    congr 1
    ring

/-- Helper: the unit loop of the duration sub-parser never produces the
`expected P` error — that error can only come from the sign/`P` prologue. -/
theorem durLoop_no_expectedP (cs : List Char) :
    ∀ (fuel pos : Nat) (isTime : Bool) (d d' : ISO8601Duration) (c : Char),
      durLoop cs pos isTime d fuel ≠ .err d' (.expectedP c) := by
  intro fuel
  induction fuel with
  | zero => intro pos isTime d d' c; simp [durLoop]
  | succ n ih =>
    intro pos isTime d d' c
    simp only [durLoop]
    repeat' split
    all_goals first | apply ih | simp

/-- C10.  `tryParseISO8601Duration ""` is the zero duration (all components
zero, `Negative` false) with no error; and the `expected P` error is only
ever produced for a non-empty literal that does not begin, after one
optional leading `+` or `-`, with the character `P`. -/
theorem c10_empty_duration :
    tryParseISO8601Duration "" = .ok {} ∧
    (∀ (s : String) (d : ISO8601Duration) (c : Char),
      tryParseISO8601Duration s = .err d (.expectedP c) →
      s ≠ "" ∧ beginsWithPAfterSign s = false) := by
  refine ⟨by decide, ?_⟩
  intro s d c h
  rcases hl : s.toList with _ | ⟨a, r⟩
  · simp only [tryParseISO8601Duration, hl] at h
    simp at h
  · have hs : s ≠ "" := by
      intro he
      rw [he] at hl
      simp at hl
    refine ⟨hs, ?_⟩
    have hd : s.data = a :: r := hl
    simp only [tryParseISO8601Duration, hl] at h
    simp only [beginsWithPAfterSign, hl]
    by_cases hm : a = '-'
    · subst hm
      rcases r with _ | ⟨b, r'⟩
      · simp +decide [hd] at h
      · by_cases hb : b = 'P'
        · subst hb
          simp +decide [hd] at h
          exact absurd h (durLoop_no_expectedP _ _ _ _ _ _ _)
        · simp +decide [dropSign, hb]
    · by_cases hp : a = '+'
      · subst hp
        rcases r with _ | ⟨b, r'⟩
        · simp +decide [hd] at h
        · by_cases hb : b = 'P'
          · subst hb
            simp +decide [hd] at h
            exact absurd h (durLoop_no_expectedP _ _ _ _ _ _ _)
          · simp +decide [dropSign, hb]
      · by_cases hb : a = 'P'
        · subst hb
          simp +decide [hd] at h
          exact absurd h (durLoop_no_expectedP _ _ _ _ _ _ _)
        · simp [dropSign, hm, hp, hb]

/-- Witness for the hypotheses of `c10_empty_duration`, instantiated at the
literal `X`. -/
theorem c10_empty_duration_witness :
    tryParseISO8601Duration "X" = .err { strRep := "X" } (.expectedP 'X') ∧
    ("X" ≠ "" ∧ beginsWithPAfterSign "X" = false) :=
  ⟨by decide,
   c10_empty_duration.2 "X" { strRep := "X" } 'X' (by decide)⟩

end Fiql
